import Mathlib

/-!
Shallow embedding of the environment wrapper stages of `src/mvp/env_wrappers.py`
(the VNL-MVP repository), together with theorems settling the specification
claims about them.

Numeric values (rewards, observations, random draws, factors) are modelled as
rationals `ℚ`; observation and action vectors as `List ℚ`; the `info` mapping
as an association list `List (String × Bool)` (the only key the wrappers read
is the boolean `"is_goal_reached"`).  Each wrapper's mutable state is passed
explicitly; its `step`/`reward`/`observation` method becomes a function from
(config, state, random draws, inner result) to (transformed result, new state).
-/

/-- The `(observation, reward, terminated, truncated, info)` tuple returned by
one `step` call of an environment. -/
structure Transition where
  observation : List ℚ
  reward : ℚ
  terminated : Bool
  truncated : Bool
  info : List (String × Bool)
deriving Repr, DecidableEq

/-! ## TargetVelocityWrapper -/

/-- Configuration of `TargetVelocityWrapper` (stored by `__init__`, lines 13-16). -/
structure TargetVelocityWrapper where
  target_velocity : ℚ
  tolerance : ℚ
deriving Repr, DecidableEq

/-- `TargetVelocityWrapper.__init__` (lines 13-16): stores the parameters and
performs no validation whatsoever, so construction always succeeds.  Fallible
construction is modelled as `Option`; the code never returns failure. -/
def TargetVelocityWrapper.init (target_velocity tolerance : ℚ) :
    Option TargetVelocityWrapper :=
  some ⟨target_velocity, tolerance⟩

/-- `TargetVelocityWrapper.step` (lines 18-29): reads `obs[8]` as the velocity,
sets `reward = max(0, 1 - |target_velocity - velocity| / tolerance)` and passes
everything else through unchanged.  `t` is the transition returned by the inner
`self.env.step(action)`. -/
def TargetVelocityWrapper.step (w : TargetVelocityWrapper) (t : Transition) :
    Transition :=
  let velocity := t.observation.getD 8 0
  let velocity_error := |w.target_velocity - velocity|
  let velocity_reward := max 0 (1 - velocity_error / w.tolerance)
  { t with reward := velocity_reward }

/-! ## JumpRewardWrapper -/

/-- Configuration of `JumpRewardWrapper` (stored by `__init__`, lines 32-34). -/
structure JumpRewardWrapper where
  jump_target_height : ℚ
deriving Repr, DecidableEq

/-- `JumpRewardWrapper.__init__` (lines 32-34): stores the parameter with no
validation; construction always succeeds. -/
def JumpRewardWrapper.init (jump_target_height : ℚ) : Option JumpRewardWrapper :=
  some ⟨jump_target_height⟩

/-- `JumpRewardWrapper.step` (lines 36-45): reads `obs[0]` as the torso height,
sets `reward = torso_height / jump_target_height`, passes the rest through. -/
def JumpRewardWrapper.step (w : JumpRewardWrapper) (t : Transition) : Transition :=
  let torso_height := t.observation.getD 0 0
  let height_reward := torso_height / w.jump_target_height
  { t with reward := height_reward }

/-! ## DelayedRewardWrapper -/

/-- `collections.deque(maxlen=n).append`: appends on the right and, when the
deque is full, silently evicts from the left, keeping the last `maxlen`
elements. -/
def dequeAppend (maxlen : ℕ) (buf : List ℚ) (r : ℚ) : List ℚ :=
  let b := buf ++ [r]
  b.drop (b.length - maxlen)

/-- `DelayedRewardWrapper.reward` (lines 53-62) acting on the explicit buffer
state: append the fresh inner reward to `reward_buffer` (a deque with
`maxlen = delay_steps`); if the buffer then holds fewer than `delay_steps`
entries emit `0.0`, otherwise pop and emit the oldest entry.  Returns the
emitted reward and the updated buffer.  (For `delay_steps ≥ 1` the buffer is
nonempty after the append, so the popleft never hits an empty deque; the `[]`
branch is unreachable and returns `0`.) -/
def DelayedRewardWrapper.reward (delay_steps : ℕ) (buf : List ℚ) (r : ℚ) :
    ℚ × List ℚ :=
  let b := dequeAppend delay_steps buf r
  if b.length < delay_steps then
    (0, b)
  else
    match b with
    | [] => (0, [])
    | oldest :: rest => (oldest, rest)

/-- Feeding a sequence of inner rewards through `DelayedRewardWrapper.reward`
step by step: returns the emitted reward sequence and the final buffer. -/
def DelayedRewardWrapper.run (delay_steps : ℕ) (buf : List ℚ) :
    List ℚ → List ℚ × List ℚ
  | [] => ([], buf)
  | r :: rs =>
      let (e, buf') := DelayedRewardWrapper.reward delay_steps buf r
      let (es, bufF) := DelayedRewardWrapper.run delay_steps buf' rs
      (e :: es, bufF)

/-- `DelayedRewardWrapper` defines no `reset` override (lines 47-62), and
`gym.RewardWrapper.reset` only delegates to the inner environment: the reward
buffer is left untouched by a reset. -/
def DelayedRewardWrapper.resetBuffer (buf : List ℚ) : List ℚ :=
  buf

/-! ## MultiTimescaleWrapper -/

/-- Configuration of `MultiTimescaleWrapper` (lines 64-72). -/
structure MultiTimescaleConfig where
  slow_scale : ℚ
  fast_scale : ℚ
  max_slow_factor : ℚ
deriving Repr, DecidableEq

/-- Mutable state of `MultiTimescaleWrapper` (lines 67-72). -/
structure MultiTimescaleState where
  slow_factor : ℚ
  fast_factor : ℚ
  episode_count : ℕ
deriving Repr, DecidableEq

/-- Initial state set by `MultiTimescaleWrapper.__init__` (lines 67-72):
both factors start at `1.0`, episode count at `0`. -/
def MultiTimescaleWrapper.initState : MultiTimescaleState :=
  { slow_factor := 1, fast_factor := 1, episode_count := 0 }

/-- State transition of `MultiTimescaleWrapper.reset` (lines 87-94): increment
`slow_factor` by `slow_scale` only when it is still strictly below
`max_slow_factor`, set `fast_factor` back to `1.0`, bump the episode count.
The delegated inner reset is external and does not touch this state. -/
def MultiTimescaleWrapper.reset (cfg : MultiTimescaleConfig)
    (st : MultiTimescaleState) : MultiTimescaleState :=
  let slow := if st.slow_factor < cfg.max_slow_factor
              then st.slow_factor + cfg.slow_scale else st.slow_factor
  { slow_factor := slow, fast_factor := 1,
    episode_count := st.episode_count + 1 }

/-- `MultiTimescaleWrapper.step` (lines 74-85) acting on the explicit state:
perturbs the action elementwise by `action * (1 + u)` with the given uniform
draws `u ∈ [-fast_scale, fast_scale]`, scales the inner reward by
`slow_factor`, and leaves the wrapper state unchanged (step mutates nothing).
Returns (modified action sent to the inner env, transformed transition,
unchanged state) given the transition `t` produced by the inner step. -/
def MultiTimescaleWrapper.step (st : MultiTimescaleState)
    (fast_change : List ℚ) (action : List ℚ) (t : Transition) :
    List ℚ × Transition × MultiTimescaleState :=
  let modified_action := (action.zip fast_change).map fun p => p.1 * (1 + p.2)
  (modified_action, { t with reward := t.reward * st.slow_factor }, st)

/-- `slow_factor` after `N` calls to `reset`, starting from the freshly
constructed wrapper. -/
def MultiTimescaleWrapper.slowFactorAfter (cfg : MultiTimescaleConfig) :
    ℕ → ℚ
  | 0 => MultiTimescaleWrapper.initState.slow_factor
  | n + 1 => (MultiTimescaleWrapper.reset cfg
      { slow_factor := MultiTimescaleWrapper.slowFactorAfter cfg n,
        fast_factor := 1, episode_count := n }).slow_factor

/-! ## MultiStepTaskWrapper -/

/-- Configuration of `MultiStepTaskWrapper` (lines 109-115).  The
goal-reached predicate is an injectable strategy `(obs, info) → Bool`. -/
structure MultiStepTaskWrapper where
  steps_to_goal : ℕ
  penalize_non_goal : Bool
  goal_reached_condition : List ℚ → List (String × Bool) → Bool

/-- `MultiStepTaskWrapper._default_goal_reached_condition` (lines 117-122):
`info.get("is_goal_reached", False)` — look up the key, defaulting to false
when absent. -/
def MultiStepTaskWrapper.defaultGoalReachedCondition
    (_obs : List ℚ) (info : List (String × Bool)) : Bool :=
  (info.lookup "is_goal_reached").getD false

/-- `MultiStepTaskWrapper.step` (lines 124-139) acting on the explicit step
counter: increment `current_steps`; if the goal predicate holds on the inner
observation and info, emit reward `1.0` and reset the counter; else if the
incremented counter has reached `steps_to_goal`, emit `-0.5` when
`penalize_non_goal` and otherwise leave the inner reward untouched, resetting
the counter either way; else emit `0.0`.  Returns the transformed transition
and the new counter, given the transition `t` of the inner step. -/
def MultiStepTaskWrapper.step (w : MultiStepTaskWrapper) (current_steps : ℕ)
    (t : Transition) : Transition × ℕ :=
  let steps := current_steps + 1
  if w.goal_reached_condition t.observation t.info then
    ({ t with reward := 1 }, 0)
  else if w.steps_to_goal ≤ steps then
    ({ t with reward := if w.penalize_non_goal then -(1/2) else t.reward }, 0)
  else
    ({ t with reward := 0 }, steps)

/-- `MultiStepTaskWrapper.reset` (lines 141-143): sets the counter to `0`. -/
def MultiStepTaskWrapper.resetCounter : ℕ :=
  0

/-! ## PartialObservabilityWrapper -/

/-- `PartialObservabilityWrapper.observation` (lines 150-153): per component,
draw `u = np.random.rand() ∈ [0, 1)` and keep the component when
`u < observable_ratio`, replacing it with `0` otherwise.  The draws are passed
explicitly, one per observation component. -/
def PartialObservabilityWrapper.observation (observable_ratio : ℚ)
    (draws obs : List ℚ) : List ℚ :=
  (draws.zip obs).map fun p => if p.1 < observable_ratio then p.2 else 0

/-! ## NonLinearDynamicsWrapper -/

/-- `NonLinearDynamicsWrapper.step` (lines 172-183) acting on the explicit
step counter: increment `step_count`; if the incremented counter exceeds
`dynamic_change_threshold`, multiply the action by the uniform draw
`factor ∈ [1.2, 2.0]` when the coin `random.random()` is `> 0.5`, divide by it
otherwise; below the threshold the action is delegated unchanged.  Returns
the action passed to the inner step and the new counter. -/
def NonLinearDynamicsWrapper.step (dynamic_change_threshold : ℕ)
    (step_count : ℕ) (coin factor : ℚ) (action : List ℚ) : List ℚ × ℕ :=
  let count := step_count + 1
  if dynamic_change_threshold < count then
    (if 1/2 < coin then action.map (· * factor) else action.map (· / factor),
     count)
  else
    (action, count)

/-- `NonLinearDynamicsWrapper` defines no `reset` override (lines 166-183) and
`gym.ActionWrapper.reset` only delegates: the step counter is untouched by a
reset. -/
def NonLinearDynamicsWrapper.resetCount (step_count : ℕ) : ℕ :=
  step_count

/-! ## Theorems -/

/-- Helper: appending to a deque that is not yet full is a plain append. -/
theorem dequeAppend_of_lt (maxlen : ℕ) (buf : List ℚ) (r : ℚ)
    (h : buf.length + 1 ≤ maxlen) :
    dequeAppend maxlen buf r = buf ++ [r] := by
  have hlen : buf.length + 1 - maxlen = 0 := by omega
  simp [dequeAppend, hlen]

/-- Helper: the emitted sequence of `DelayedRewardWrapper`, starting from a
buffer strictly below capacity, is the fill of zeros followed by the buffered
and fresh rewards, truncated to the number of steps taken. -/
theorem DelayedRewardWrapper.run_emit (delay_steps : ℕ) (rs : List ℚ) :
    ∀ buf : List ℚ, buf.length + 1 ≤ delay_steps →
      (DelayedRewardWrapper.run delay_steps buf rs).1 =
        (List.replicate (delay_steps - 1 - buf.length) 0 ++ buf ++ rs).take
          rs.length := by
  induction rs with
  | nil =>
    intro buf h
    simp [DelayedRewardWrapper.run]
  | cons r rs ih =>
    intro buf h
    have hb : dequeAppend delay_steps buf r = buf ++ [r] :=
      dequeAppend_of_lt delay_steps buf r h
    by_cases hlt : buf.length + 1 < delay_steps
    · have hrw : DelayedRewardWrapper.reward delay_steps buf r = (0, buf ++ [r]) := by
        unfold DelayedRewardWrapper.reward
        rw [hb, if_pos (by simpa using hlt)]
      have hstep : (DelayedRewardWrapper.run delay_steps buf (r :: rs)).1 =
          0 :: (DelayedRewardWrapper.run delay_steps (buf ++ [r]) rs).1 := by
        simp [DelayedRewardWrapper.run, hrw]
      rw [hstep, ih (buf ++ [r]) (by simp; omega)]
      have hd1 : delay_steps - 1 - buf.length =
          (delay_steps - 1 - (buf.length + 1)) + 1 := by omega
      rw [hd1, List.replicate_succ]
      simp [List.append_assoc]
    · have hlen : buf.length + 1 = delay_steps := by omega
      obtain ⟨oldest, rest, hcons⟩ :=
        List.exists_cons_of_ne_nil (l := buf ++ [r]) (by simp)
      have hrest : rest.length + 1 = delay_steps := by
        have := congrArg List.length hcons
        simp at this
        omega
      have hrw : DelayedRewardWrapper.reward delay_steps buf r = (oldest, rest) := by
        unfold DelayedRewardWrapper.reward
        rw [hb, hcons, if_neg (by simp; omega)]
      have hstep : (DelayedRewardWrapper.run delay_steps buf (r :: rs)).1 =
          oldest :: (DelayedRewardWrapper.run delay_steps rest rs).1 := by
        simp [DelayedRewardWrapper.run, hrw]
      rw [hstep, ih rest (by omega)]
      have h0 : delay_steps - 1 - buf.length = 0 := by omega
      have h0' : delay_steps - 1 - rest.length = 0 := by omega
      have hbr : buf ++ r :: rs = oldest :: (rest ++ rs) := by
        have h2 := congrArg (fun l => l ++ rs) hcons
        simpa [List.append_assoc] using h2
      rw [h0, h0']
      simp only [List.replicate_zero, List.nil_append]
      rw [hbr]
      simp

/-- C1 (counterexample): with `delay_steps = 3` and inner rewards
`[1, 2, 3, 4, 5]` fed to a fresh episode, the code emits `[0, 0, 1, 2, 3]` —
only two zeros, with the first inner reward released on the third step — and
not `[0, 0, 0, 1, 2]` as the claim states. -/
theorem delayedReward_three_counterexample :
    (DelayedRewardWrapper.run 3 [] [1, 2, 3, 4, 5]).1 = [0, 0, 1, 2, 3] ∧
    (DelayedRewardWrapper.run 3 [] [1, 2, 3, 4, 5]).1 ≠ [0, 0, 0, 1, 2] := by
  decide

/-- C1 (amended): for every `delay_steps ≥ 1`, starting from an empty buffer,
the first `delay_steps - 1` steps emit `0` and the k-th step thereafter emits
the inner reward of step `k - (delay_steps - 1)`: the emitted sequence is the
first `|rs|` entries of `delay_steps - 1` zeros followed by the inner
rewards. -/
theorem delayedReward_emitted (delay_steps : ℕ) (rs : List ℚ)
    (h : 1 ≤ delay_steps) :
    (DelayedRewardWrapper.run delay_steps [] rs).1 =
      (List.replicate (delay_steps - 1) 0 ++ rs).take rs.length := by
  have hrun := DelayedRewardWrapper.run_emit delay_steps rs [] (by simpa using h)
  simpa using hrun

/-- C1 (witness): the amended statement evaluated at `delay_steps = 3`,
inner rewards `[1, 2, 3, 4, 5]`. -/
theorem delayedReward_emitted_witness :
    1 ≤ 3 ∧
    (DelayedRewardWrapper.run 3 [] [1, 2, 3, 4, 5]).1 =
      (List.replicate (3 - 1) 0 ++ [1, 2, 3, 4, 5]).take
        (List.length [(1 : ℚ), 2, 3, 4, 5]) :=
  ⟨by decide, delayedReward_emitted 3 [1, 2, 3, 4, 5] (by decide)⟩

/-- C2 (code_bug evaluation): `DelayedRewardWrapper` never clears its buffer on
reset.  With `delay_steps = 2`, running an episode with inner rewards `[5, 7]`
leaves `7` in the buffer; after a reset, the next episode with inner rewards
`[9, 9]` emits `[7, 9]` — its very first step emits the previous episode's
leftover reward `7` instead of the `0` the claim requires. -/
theorem delayedReward_reset_leak :
    (DelayedRewardWrapper.run 2
        (DelayedRewardWrapper.resetBuffer (DelayedRewardWrapper.run 2 [] [5, 7]).2)
        [9, 9]).1 = [7, 9] ∧
    (DelayedRewardWrapper.run 2
        (DelayedRewardWrapper.resetBuffer (DelayedRewardWrapper.run 2 [] [5, 7]).2)
        [9, 9]).1 ≠ [0, 0] := by
  decide

/-- A Multi-Step-Goal stage with `reward_goal_steps = 2`,
`penalize_non_goal = False` and the default goal predicate. -/
def msNoPenalty : MultiStepTaskWrapper :=
  { steps_to_goal := 2, penalize_non_goal := false,
    goal_reached_condition := MultiStepTaskWrapper.defaultGoalReachedCondition }

/-- An inner transition carrying a nonzero inner reward `5` and no
goal-reached info. -/
def tInner5 : Transition :=
  { observation := [], reward := 5, terminated := false, truncated := false,
    info := [] }

/-- C3 (counterexample): with `penalize_non_goal = false`,
`reward_goal_steps = 2`, counter at `1` and an inner reward of `5`, the
timeout branch leaves the inner reward untouched: the emitted reward is `5`,
not the `0.0` the claim states (the code has no `else`-assignment in that
branch). -/
theorem multiStepTimeout_counterexample :
    (msNoPenalty.step 1 tInner5).1.reward = 5 ∧
    (msNoPenalty.step 1 tInner5).1.reward ≠ 0 ∧
    (msNoPenalty.step 1 tInner5).2 = 0 := by
  decide

/-- C3 (amended): on any step where the goal predicate does not hold and the
counter (after being incremented for the current step) has reached
`reward_goal_steps`, the emitted reward is `-0.5` if `penalize_non_goal` is
true and the unmodified inner reward if it is false, and in both cases the
counter is reset to 0. -/
theorem multiStepTimeout_spec (w : MultiStepTaskWrapper) (current_steps : ℕ)
    (t : Transition)
    (hgoal : w.goal_reached_condition t.observation t.info = false)
    (htimeout : w.steps_to_goal ≤ current_steps + 1) :
    (w.step current_steps t).1.reward =
      (if w.penalize_non_goal then -(1/2) else t.reward) ∧
    (w.step current_steps t).2 = 0 := by
  simp [MultiStepTaskWrapper.step, hgoal, htimeout]

/-- C3 (witness): the amended statement evaluated on `msNoPenalty` with the
counter at `1` and inner reward `5`. -/
theorem multiStepTimeout_spec_witness :
    (msNoPenalty.step 1 tInner5).1.reward =
      (if msNoPenalty.penalize_non_goal then -(1/2) else tInner5.reward) ∧
    (msNoPenalty.step 1 tInner5).2 = 0 :=
  multiStepTimeout_spec msNoPenalty 1 tInner5 (by decide) (by decide)

/-- C4 (code_bug evaluation): neither constructor validates its divisor:
`TargetVelocityWrapper` with `tolerance = 0` and `JumpRewardWrapper` with
`jump_target_height = 0` are both constructed successfully, contradicting the
claimed construction-time failure. -/
theorem zeroDivisor_construction_succeeds :
    (TargetVelocityWrapper.init 2 0).isSome = true ∧
    (JumpRewardWrapper.init 0).isSome = true := by
  decide

/-- C5 (counterexample): with `slow_scale = 0.3` and `max_slow_factor = 1.5`,
after 2 resets the code holds `slow_factor = 1.6`: the cap is checked before
the increment, so the factor overshoots `max_slow_factor` and differs from
`min(1.0 + slow_scale*N, max_slow_factor)`. -/
theorem slowFactor_overshoot_counterexample :
    MultiTimescaleWrapper.slowFactorAfter
      { slow_scale := 3/10, fast_scale := 1/10, max_slow_factor := 3/2 } 2 =
      8/5 ∧
    ¬ MultiTimescaleWrapper.slowFactorAfter
      { slow_scale := 3/10, fast_scale := 1/10, max_slow_factor := 3/2 } 2 ≤
      3/2 ∧
    MultiTimescaleWrapper.slowFactorAfter
      { slow_scale := 3/10, fast_scale := 1/10, max_slow_factor := 3/2 } 2 ≠
      min (1 + (3/10) * 2) (3/2) := by
  refine ⟨?_, ?_, ?_⟩ <;>
    norm_num [MultiTimescaleWrapper.slowFactorAfter, MultiTimescaleWrapper.reset,
      MultiTimescaleWrapper.initState, min_def]

/-- Helper: when `max_slow_factor` lies exactly on the increment grid,
`max_slow_factor = 1 + slow_scale * K`, the slow factor after `n` resets is
`1 + slow_scale * min n K`. -/
theorem slowFactorAfter_grid (cfg : MultiTimescaleConfig) (K : ℕ)
    (hpos : 0 < cfg.slow_scale)
    (hK : cfg.max_slow_factor = 1 + cfg.slow_scale * (K : ℚ)) (n : ℕ) :
    MultiTimescaleWrapper.slowFactorAfter cfg n =
      1 + cfg.slow_scale * ((min n K : ℕ) : ℚ) := by
  induction n with
  | zero =>
    simp [MultiTimescaleWrapper.slowFactorAfter, MultiTimescaleWrapper.initState]
  | succ n ih =>
    rw [MultiTimescaleWrapper.slowFactorAfter, ih]
    simp only [MultiTimescaleWrapper.reset]
    by_cases hn : n < K
    · have hcast : ((min n K : ℕ) : ℚ) = (n : ℚ) := by
        rw [Nat.min_eq_left hn.le]
      have hmul : cfg.slow_scale * (n : ℚ) < cfg.slow_scale * (K : ℚ) :=
        mul_lt_mul_of_pos_left (by exact_mod_cast hn) hpos
      have hlt : 1 + cfg.slow_scale * ((min n K : ℕ) : ℚ) < cfg.max_slow_factor := by
        rw [hcast, hK]
        linarith
      rw [if_pos hlt]
      have hmin : min (n + 1) K = n + 1 := Nat.min_eq_left (by omega)
      rw [hmin, hcast]
      push_cast
      ring
    · have hcast : ((min n K : ℕ) : ℚ) = (K : ℚ) := by
        rw [Nat.min_eq_right (by omega)]
      have hge : ¬ 1 + cfg.slow_scale * ((min n K : ℕ) : ℚ) < cfg.max_slow_factor := by
        rw [hcast, hK]
        exact lt_irrefl _
      rw [if_neg hge]
      have hmin : min (n + 1) K = K := Nat.min_eq_right (by omega)
      rw [hmin, hcast]

/-- C5 (amended): `slow_factor` starts at 1.0 and, whenever `slow_scale > 0`
and `max_slow_factor = 1.0 + slow_scale * K` for some natural `K` (the
claimed formula's sound regime, covering the spec's `slow_scale = 0.001,
max_slow_factor = 2.0`), after `N` calls to `reset` it equals
`min(1.0 + slow_scale * N, max_slow_factor)` and never exceeds
`max_slow_factor`.  When `max_slow_factor - 1.0` is not a multiple of
`slow_scale`, the factor can overshoot the cap by up to `slow_scale` (see the
counterexample). -/
theorem slowFactor_spec (cfg : MultiTimescaleConfig) (K N : ℕ)
    (hpos : 0 < cfg.slow_scale)
    (hK : cfg.max_slow_factor = 1 + cfg.slow_scale * (K : ℚ)) :
    MultiTimescaleWrapper.initState.slow_factor = 1 ∧
    MultiTimescaleWrapper.slowFactorAfter cfg N =
      min (1 + cfg.slow_scale * (N : ℚ)) cfg.max_slow_factor ∧
    MultiTimescaleWrapper.slowFactorAfter cfg N ≤ cfg.max_slow_factor := by
  have hformula : MultiTimescaleWrapper.slowFactorAfter cfg N =
      min (1 + cfg.slow_scale * (N : ℚ)) cfg.max_slow_factor := by
    rw [slowFactorAfter_grid cfg K hpos hK N, hK]
    rcases le_total N K with hNK | hKN
    · rw [Nat.min_eq_left hNK,
        min_eq_left (by
          have : cfg.slow_scale * (N : ℚ) ≤ cfg.slow_scale * (K : ℚ) :=
            mul_le_mul_of_nonneg_left (by exact_mod_cast hNK) hpos.le
          linarith)]
    · rw [Nat.min_eq_right hKN,
        min_eq_right (by
          have : cfg.slow_scale * (K : ℚ) ≤ cfg.slow_scale * (N : ℚ) :=
            mul_le_mul_of_nonneg_left (by exact_mod_cast hKN) hpos.le
          linarith)]
  exact ⟨rfl, hformula, hformula ▸ min_le_right _ _⟩

/-- The Multi-Timescale configuration of the spec's example:
`slow_scale = 0.001, max_slow_factor = 2.0`. -/
def mtCfgSpec : MultiTimescaleConfig :=
  { slow_scale := 1/1000, fast_scale := 1/10, max_slow_factor := 2 }

/-- C5 (witness): the amended statement evaluated on the spec's configuration
with `K = 1000` after `3` resets. -/
theorem slowFactor_spec_witness :
    MultiTimescaleWrapper.initState.slow_factor = 1 ∧
    MultiTimescaleWrapper.slowFactorAfter mtCfgSpec 3 =
      min (1 + mtCfgSpec.slow_scale * ((3 : ℕ) : ℚ)) mtCfgSpec.max_slow_factor ∧
    MultiTimescaleWrapper.slowFactorAfter mtCfgSpec 3 ≤ mtCfgSpec.max_slow_factor :=
  slowFactor_spec mtCfgSpec 1000 3 (by norm_num [mtCfgSpec])
    (by norm_num [mtCfgSpec])

/-- C6: for `tolerance > 0` the Target-Velocity reward equals
`max(0, 1 - |target_velocity - velocity| / tolerance)`; it is `1.0` when the
velocity hits the target, `0.0` when the error reaches the tolerance, always
lies in `[0, 1]`, and is monotone non-increasing in the error (a step `t2`
with error no larger than `t`'s gets a reward no smaller). -/
theorem targetVelocity_reward_spec (w : TargetVelocityWrapper)
    (t t2 : Transition) (htol : 0 < w.tolerance) :
    (w.step t).reward =
      max 0 (1 - |w.target_velocity - t.observation.getD 8 0| / w.tolerance) ∧
    (t.observation.getD 8 0 = w.target_velocity → (w.step t).reward = 1) ∧
    (w.tolerance ≤ |w.target_velocity - t.observation.getD 8 0| →
      (w.step t).reward = 0) ∧
    (0 ≤ (w.step t).reward ∧ (w.step t).reward ≤ 1) ∧
    (|w.target_velocity - t2.observation.getD 8 0| ≤
        |w.target_velocity - t.observation.getD 8 0| →
      (w.step t).reward ≤ (w.step t2).reward) := by
  have hstep : ∀ s : Transition, (w.step s).reward =
      max 0 (1 - |w.target_velocity - s.observation.getD 8 0| / w.tolerance) :=
    fun _ => rfl
  refine ⟨rfl, ?_, ?_, ⟨?_, ?_⟩, ?_⟩
  · intro hv
    rw [hstep t, hv, sub_self, abs_zero, zero_div, sub_zero]
    exact max_eq_right zero_le_one
  · intro he
    have h1 : 1 ≤ |w.target_velocity - t.observation.getD 8 0| / w.tolerance :=
      (one_le_div htol).mpr he
    rw [hstep t]
    exact max_eq_left (by linarith)
  · rw [hstep t]
    exact le_max_left _ _
  · have h0 : 0 ≤ |w.target_velocity - t.observation.getD 8 0| / w.tolerance :=
      div_nonneg (abs_nonneg _) htol.le
    rw [hstep t]
    exact max_le (by norm_num) (by linarith)
  · intro hmono
    have hdiv : |w.target_velocity - t2.observation.getD 8 0| / w.tolerance ≤
        |w.target_velocity - t.observation.getD 8 0| / w.tolerance :=
      (div_le_div_iff_of_pos_right htol).mpr hmono
    rw [hstep t, hstep t2]
    exact max_le_max le_rfl (by linarith)

/-- C6 (witness): a transition whose component 8 equals the target velocity
`2` with `tolerance = 1/2` earns reward `1`. -/
theorem targetVelocity_reward_spec_witness :
    0 < ((⟨2, 1/2⟩ : TargetVelocityWrapper)).tolerance ∧
    (TargetVelocityWrapper.step ⟨2, 1/2⟩
      { observation := [0, 0, 0, 0, 0, 0, 0, 0, 2], reward := 7,
        terminated := false, truncated := false, info := [] }).reward = 1 :=
  ⟨by norm_num,
    (targetVelocity_reward_spec ⟨2, 1/2⟩
      { observation := [0, 0, 0, 0, 0, 0, 0, 0, 2], reward := 7,
        terminated := false, truncated := false, info := [] }
      { observation := [0, 0, 0, 0, 0, 0, 0, 0, 2], reward := 7,
        terminated := false, truncated := false, info := [] }
      (by norm_num)).2.1 (by decide)⟩

/-- C7: on any step where the goal predicate holds (at any counter value) the
emitted reward is `1.0` and the counter is reset to 0; the default predicate
treats an info mapping lacking the `"is_goal_reached"` key as
goal-not-reached (it totally evaluates to `false`, never an error). -/
theorem multiStepGoal_spec (w : MultiStepTaskWrapper) (current_steps : ℕ)
    (t : Transition) (obs2 : List ℚ) (info2 : List (String × Bool))
    (hgoal : w.goal_reached_condition t.observation t.info = true)
    (hmissing : info2.lookup "is_goal_reached" = none) :
    (w.step current_steps t).1.reward = 1 ∧
    (w.step current_steps t).2 = 0 ∧
    MultiStepTaskWrapper.defaultGoalReachedCondition obs2 info2 = false := by
  refine ⟨?_, ?_, ?_⟩
  · simp [MultiStepTaskWrapper.step, hgoal]
  · simp [MultiStepTaskWrapper.step, hgoal]
  · simp [MultiStepTaskWrapper.defaultGoalReachedCondition, hmissing]

/-- A Multi-Step-Goal stage with the default goal predicate and penalties
enabled. -/
def msPenalty : MultiStepTaskWrapper :=
  { steps_to_goal := 10, penalize_non_goal := true,
    goal_reached_condition := MultiStepTaskWrapper.defaultGoalReachedCondition }

/-- An inner transition whose info marks the goal as reached. -/
def tGoalReached : Transition :=
  { observation := [], reward := 5, terminated := false, truncated := false,
    info := [("is_goal_reached", true)] }

/-- C7 (witness): the statement evaluated on `msPenalty` at counter `4`, an
inner transition whose info holds `is_goal_reached = true`, and an info
mapping with only an unrelated key. -/
theorem multiStepGoal_spec_witness :
    (msPenalty.step 4 tGoalReached).1.reward = 1 ∧
    (msPenalty.step 4 tGoalReached).2 = 0 ∧
    MultiStepTaskWrapper.defaultGoalReachedCondition []
      [("unrelated", true)] = false :=
  multiStepGoal_spec msPenalty 4 tGoalReached [] [("unrelated", true)]
    (by decide) (by decide)

/-- C8: with `observable_ratio = 1.0` and every per-component draw of
`np.random.rand()` lying in `[0, 1)`, the Partial-Observability output equals
the input observation component for component. -/
theorem partialObservability_identity (draws obs : List ℚ)
    (hlen : draws.length = obs.length)
    (hdraws : ∀ u ∈ draws, u < 1) :
    PartialObservabilityWrapper.observation 1 draws obs = obs := by
  induction draws generalizing obs with
  | nil =>
    cases obs with
    | nil => rfl
    | cons x xs => simp at hlen
  | cons u us ih =>
    cases obs with
    | nil => simp at hlen
    | cons x xs =>
      have hu : u < 1 := hdraws u (by simp)
      have hrest : ∀ v ∈ us, v < 1 := fun v hv => hdraws v (by simp [hv])
      have hxs := ih xs (by simpa using hlen) hrest
      simpa [PartialObservabilityWrapper.observation, hu]
        using hxs

/-- C8 (witness): draws `[1/2, 0, 3/4]` on observation `[1, 2, 3]` leave it
unchanged. -/
theorem partialObservability_identity_witness :
    PartialObservabilityWrapper.observation 1 [1/2, 0, 3/4] [1, 2, 3] =
      [1, 2, 3] :=
  partialObservability_identity [1/2, 0, 3/4] [1, 2, 3] (by decide)
    (by norm_num)

/-- C9: the Nonlinear-Dynamics step counter increases by exactly 1 on every
step, a reset leaves it untouched, and while the incremented counter has not
exceeded `dynamic_change_threshold` the action is delegated unchanged. -/
theorem nonLinearDynamics_spec (dynamic_change_threshold step_count : ℕ)
    (coin factor : ℚ) (action : List ℚ) :
    (NonLinearDynamicsWrapper.step dynamic_change_threshold step_count coin
        factor action).2 = step_count + 1 ∧
    NonLinearDynamicsWrapper.resetCount step_count = step_count ∧
    (step_count + 1 ≤ dynamic_change_threshold →
      (NonLinearDynamicsWrapper.step dynamic_change_threshold step_count coin
          factor action).1 = action) := by
  refine ⟨?_, rfl, ?_⟩
  · simp only [NonLinearDynamicsWrapper.step]
    split <;> rfl
  · intro h
    simp only [NonLinearDynamicsWrapper.step]
    rw [if_neg (by omega)]

/-- C9 (witness): the statement evaluated at threshold `100`, counter `0`,
coin `3/4`, factor `3/2`, action `[1, 2]`; the below-threshold implication is
discharged at this input. -/
theorem nonLinearDynamics_spec_witness :
    (NonLinearDynamicsWrapper.step 100 0 (3/4) (3/2) [1, 2]).2 = 0 + 1 ∧
    NonLinearDynamicsWrapper.resetCount 0 = 0 ∧
    (NonLinearDynamicsWrapper.step 100 0 (3/4) (3/2) [1, 2]).1 = [1, 2] :=
  ⟨(nonLinearDynamics_spec 100 0 (3/4) (3/2) [1, 2]).1,
   (nonLinearDynamics_spec 100 0 (3/4) (3/2) [1, 2]).2.1,
   (nonLinearDynamics_spec 100 0 (3/4) (3/2) [1, 2]).2.2 (by decide)⟩

/-- C10: the Target-Velocity and Jump-Height steps return the inner step's
observation, terminated, truncated and info unchanged; only the reward field
of the Transition is replaced. -/
theorem rewardWrappers_frame (wv : TargetVelocityWrapper)
    (wj : JumpRewardWrapper) (t : Transition) :
    (wv.step t).observation = t.observation ∧
    (wv.step t).terminated = t.terminated ∧
    (wv.step t).truncated = t.truncated ∧
    (wv.step t).info = t.info ∧
    (wj.step t).observation = t.observation ∧
    (wj.step t).terminated = t.terminated ∧
    (wj.step t).truncated = t.truncated ∧
    (wj.step t).info = t.info :=
  ⟨rfl, rfl, rfl, rfl, rfl, rfl, rfl, rfl⟩
